import Mathlib

/-!
Verification development for the enrollment-list converter
(`pdf_to_csv_converter.py`): a shallow embedding of the line
classification and field-extraction engine, together with theorems about
the properties stated in the specification.

Python strings are modelled as Lean `String` (operations go through the
underlying `List Char`, matching Python's code-point semantics for the
ASCII data this program handles).  The regular expressions of the source
are translated into executable recognizers over `List Char`; every
anchored character-class regex in the source has disjoint adjacent
classes, so greedy maximal-run scanning is equivalent to the regex with
backtracking.
-/

set_option maxRecDepth 4096

namespace RegConv

/-! ## Character-list string primitives -/

/-- `l.dropWhile p` from both ends: the model of Python `str.strip(chars)`. -/
def stripListBy (p : Char → Bool) (l : List Char) : List Char :=
  ((l.dropWhile p).reverse.dropWhile p).reverse

/-- Python `str.strip()` (no argument): strip whitespace from both ends. -/
def pyStrip (s : String) : String :=
  ⟨stripListBy Char.isWhitespace s.data⟩

/-- Python `str.strip(cs)`: strip any of the characters `cs` from both ends. -/
def stripChars (cs : List Char) (s : String) : String :=
  ⟨stripListBy (fun c => cs.contains c) s.data⟩

/-- Strip the characters `cs` from the right end only (used to state the
claim that reads `strip('.,')` as trailing-only). -/
def stripRightChars (cs : List Char) (s : String) : String :=
  ⟨(s.data.reverse.dropWhile (fun c => cs.contains c)).reverse⟩

/-- Python `str.rstrip()`: strip whitespace from the right end. -/
def pyRstrip (s : String) : String :=
  ⟨(s.data.reverse.dropWhile Char.isWhitespace).reverse⟩

/-- Python `str.upper()` (ASCII). -/
def pyUpper (s : String) : String :=
  ⟨s.data.map Char.toUpper⟩

/-- Python `str.isdigit()` (ASCII): non-empty and all digits. -/
def pyIsDigit (s : String) : Bool :=
  !s.data.isEmpty && s.data.all Char.isDigit

/-- Python slicing `s[n:]` (by code points). -/
def pyDrop (s : String) (n : Nat) : String :=
  ⟨s.data.drop n⟩

/-- `leadsWith w l`: `l` starts with `w` (Python `startswith` on char lists). -/
def leadsWith : List Char → List Char → Bool
  | [], _ => true
  | _ :: _, [] => false
  | a :: as, b :: bs => a = b && leadsWith as bs

/-- Python `str.startswith`. -/
def leadsWithStr (w s : String) : Bool :=
  leadsWith w.data s.data

/-- `hasSub n h`: Python `n in h` substring containment. -/
def hasSub (needle : List Char) : List Char → Bool
  | [] => needle.isEmpty
  | c :: t => leadsWith needle (c :: t) || hasSub needle t

/-- Case-insensitive literal matcher: if `l` starts with the (uppercase)
word `w` up to `Char.toUpper`, return the rest of `l`. -/
def dropCI : List Char → List Char → Option (List Char)
  | [], l => some l
  | _ :: _, [] => none
  | a :: as, b :: bs => if a = b.toUpper then dropCI as bs else none

/-- Python `" ".join`. -/
def joinSpaces : List String → String
  | [] => ""
  | [t] => t
  | t :: rest => t ++ " " ++ joinSpaces rest

/-- Maximal non-whitespace runs of a character list (the pieces of
`re.split(r'\s+', text)` once empty fragments are dropped). -/
def wordsAux : List Char → List Char → List (List Char)
  | [], acc => if acc.isEmpty then [] else [acc.reverse]
  | c :: rest, acc =>
    if c.isWhitespace then
      if acc.isEmpty then wordsAux rest [] else acc.reverse :: wordsAux rest []
    else wordsAux rest (c :: acc)

/-- Split into lines at `'\n'` (model of `str.splitlines` for the
newline-joined page texts this program builds; a trailing empty piece is
filtered away by the blank-line filter downstream). -/
def splitLinesAux : List Char → List Char → List String
  | [], acc => [⟨acc.reverse⟩]
  | c :: rest, acc =>
    if c = '\n' then ⟨acc.reverse⟩ :: splitLinesAux rest []
    else splitLinesAux rest (c :: acc)

def pySplitlines (s : String) : List String :=
  splitLinesAux s.data []

/-! ## Shape recognizers (the compiled regexes of the source)

`DATE_RE  = ^(?:\d{1,2}[/\-]\d{1,2}[/\-]\d{2,4}|\d{4}[/\-]\d{1,2}[/\-]\d{1,2})$`
`SEX_RE   = ^(?:M|F|MALE|FEMALE|Male|Female)$` (IGNORECASE)
`NHIA_RE  = ^[0-9]{3,}[-]?[0-9]*$`
`FOOTER_RE = ^\s*Page\s+\d+\s+of\s+\d+.*$` (IGNORECASE)
-/

def isSepChar (c : Char) : Bool := c = '/' || c = '-'

/-- `DATE_RE` as a whole-string recognizer.  In any match the digit
groups are forced to be the maximal digit runs (a digit cannot match a
separator), so the three-run decomposition below is equivalent. -/
def dateShape (s : String) : Bool :=
  let l := s.data
  let d1 := l.takeWhile Char.isDigit
  match l.dropWhile Char.isDigit with
  | c1 :: r2 =>
    if isSepChar c1 then
      let d2 := r2.takeWhile Char.isDigit
      match r2.dropWhile Char.isDigit with
      | c2 :: r4 =>
        if isSepChar c2 then
          let d3 := r4.takeWhile Char.isDigit
          let r5 := r4.dropWhile Char.isDigit
          r5.isEmpty && decide (1 ≤ d2.length ∧ d2.length ≤ 2 ∧
            ((1 ≤ d1.length ∧ d1.length ≤ 2 ∧ 2 ≤ d3.length ∧ d3.length ≤ 4) ∨
             (d1.length = 4 ∧ 1 ≤ d3.length ∧ d3.length ≤ 2)))
        else false
      | [] => false
    else false
  | [] => false

/-- `SEX_RE` (the redundant `Male|Female` alternatives of the source
collapse under IGNORECASE). -/
def sexMatch (s : String) : Bool :=
  let u := pyUpper s
  u = "M" || u = "F" || u = "MALE" || u = "FEMALE"

/-- `NHIA_RE`: three or more digits, an optional hyphen, optional
trailing digits. -/
def nhiaShape (s : String) : Bool :=
  let l := s.data
  let d1 := l.takeWhile Char.isDigit
  match l.dropWhile Char.isDigit with
  | [] => decide (3 ≤ d1.length)
  | c :: r => c = '-' && r.all Char.isDigit && decide (3 ≤ d1.length)

/-- `FOOTER_RE` as a prefix matcher (`re.match`). -/
def footerMatch (s : String) : Bool :=
  let l := s.data.dropWhile Char.isWhitespace
  match dropCI "PAGE".data l with
  | none => false
  | some r =>
    let w1 := r.takeWhile Char.isWhitespace
    let r1 := r.dropWhile Char.isWhitespace
    let d1 := r1.takeWhile Char.isDigit
    let r2 := r1.dropWhile Char.isDigit
    let w2 := r2.takeWhile Char.isWhitespace
    let r3 := r2.dropWhile Char.isWhitespace
    if w1.isEmpty || d1.isEmpty || w2.isEmpty then false
    else
      match dropCI "OF".data r3 with
      | none => false
      | some r4 =>
        let w3 := r4.takeWhile Char.isWhitespace
        let r5 := r4.dropWhile Char.isWhitespace
        let d2 := r5.takeWhile Char.isDigit
        !w3.isEmpty && !d2.isEmpty

/-- `is_footer_line` of the source. -/
def is_footer_line (line : String) : Bool :=
  footerMatch (pyStrip line)

/-! ## Token utilities of the source -/

/-- `normalize_token`: `t.strip().strip(',')`. -/
def normalize_token (t : String) : String :=
  stripChars [','] (pyStrip t)

/-- The token sequence of one line body:
`[normalize_token(t) for t in re.split(r'\s+', text) if t.strip() != ""]`. -/
def tokenizeText (text : String) : List String :=
  (((wordsAux text.data []).map String.mk).filter
    (fun t => pyStrip t != "")).map normalize_token

/-- The tokens `parse_member_line` works on for a given input line. -/
def lineTokens (line : String) : List String :=
  tokenizeText (pyStrip line)

/-- Generic first-index scan (the `for i, t in enumerate(tokens)` loops of
`find_date_index`). -/
def scanIdx (p : String → Bool) : List String → Nat → Option Nat
  | [], _ => none
  | t :: rest, i => if p t then some i else scanIdx p rest (i + 1)

/-- `find_date_index`: first token matching `DATE_RE`; failing that, first
token matching after `strip('.,')`. -/
def find_date_index (tokens : List String) : Option Nat :=
  match scanIdx (fun t => dateShape (pyStrip t)) tokens 0 with
  | some i => some i
  | none => scanIdx (fun t => dateShape (stripChars ['.', ','] (pyStrip t))) tokens 0

/-- The bounded scan of `find_nhia_index`
(`for i in range(min(len(tokens), max_scan))`). -/
def nhiaScanAux : List String → Nat → Nat → Option Nat
  | [], _, _ => none
  | _ :: _, 0, _ => none
  | t :: rest, fuel + 1, i =>
    if nhiaShape (pyStrip t) then some i else nhiaScanAux rest fuel (i + 1)

/-- `find_nhia_index`. -/
def find_nhia_index (tokens : List String) (maxScan : Nat) : Option Nat :=
  nhiaScanAux tokens maxScan 0

/-! ## The Token Field Extractor (`parse_member_line`) -/

/-- Pre-context record: the dictionary returned by `parse_member_line`. -/
structure PreRecord where
  NHIA_Number : String
  Relationship : String
  FirstName : String
  LastName : String
  Sex : String
  DOB : String
  EmpCode : String
deriving DecidableEq, Repr

def RELATION_KEYWORDS : List String :=
  ["PRINCIPAL", "SPOUSE", "CHILD", "CHILD1", "CHILD2", "CHILD3",
   "CHILD4", "CHILD 1", "CHILD 2", "GUARDIAN", "DEPENDENT", "DEPENDANT"]

def headerLike : List String :=
  ["S/N", "NHIA", "NO", "NAME", "RELATION", "REL", "SEX", "DOB", "EMP",
   "EMP CODE", "EMPLOYEE"]

/-- The relationship-classification chain on the middle zone
(lines 124–146 of the source). -/
def relationSplit (middle : List String) : String × List String :=
  if middle.length = 0 then ("", [])
  else if 2 ≤ middle.length ∧ pyUpper (middle.getD 0 "") = "CHILD" ∧
      pyIsDigit (middle.getD 1 "") then
    (joinSpaces (middle.take 2), middle.drop 2)
  else if 3 ≤ middle.length ∧ pyUpper (middle.getD 0 "") = "EXTRA" ∧
      pyUpper (middle.getD 1 "") = "DEPENDENT" ∧ pyIsDigit (middle.getD 2 "") then
    (joinSpaces (middle.take 3), middle.drop 3)
  else if 2 ≤ middle.length ∧
      (pyUpper (joinSpaces (middle.take 2)) = "EXTRA DEPENDENT" ∨
       pyUpper (joinSpaces (middle.take 2)) = "EXTRA DEPENDANT") then
    (joinSpaces (middle.take 2), middle.drop 2)
  else if RELATION_KEYWORDS.contains (pyUpper (middle.getD 0 "")) then
    (middle.getD 0 "", middle.drop 1)
  else ("", middle)

/-- The first/last-name split (lines 148–156 of the source). -/
def nameSplit : List String → String × String
  | [] => ("", "")
  | [t] => (t, "")
  | ts => (joinSpaces ts.dropLast, ts.getLastD "")

/-- `parse_member_line`: the Token Field Extractor. -/
def parse_member_line (line : String) : Option PreRecord :=
  let text := pyStrip line
  if text = "" then none
  else
    let tokens := tokenizeText text
    if tokens.length < 3 then none
    else if (tokens.take 4).any (fun t => headerLike.contains (pyUpper t)) then none
    else
      match find_date_index tokens with
      | none => none
      | some dobIdx =>
        let dobToken := pyStrip (tokens.getD dobIdx "")
        let sexPair :=
          if 1 ≤ dobIdx ∧ sexMatch (pyStrip (tokens.getD (dobIdx - 1) "")) then
            (pyStrip (tokens.getD (dobIdx - 1) ""), dobIdx - 1)
          else ("", dobIdx)
        let empCode :=
          if dobIdx + 1 < tokens.length then
            pyStrip (joinSpaces (tokens.drop (dobIdx + 1)))
          else ""
        match find_nhia_index tokens 3 with
        | none => none
        | some nhiaIdx =>
          let nhia := pyStrip (tokens.getD nhiaIdx "")
          let middle := (tokens.take sexPair.2).drop (nhiaIdx + 1)
          let rel := relationSplit middle
          let names := nameSplit rel.2
          some ⟨nhia, rel.1, names.1, names.2, sexPair.1, dobToken, empCode⟩

/-! ## The Line Classifier (the regex searches of `parse_document_text`) -/

/-- Try `provider_number_re = Provider Number[:\s]*([A-Z0-9\-\/]+)` at the
head of `l`; returns the captured group. -/
def provNumAt (l : List Char) : Option String :=
  match dropCI "PROVIDER NUMBER".data l with
  | none => none
  | some r =>
    let r2 := r.dropWhile (fun c => c = ':' || c.isWhitespace)
    let cap := r2.takeWhile (fun c => c.isAlpha || c.isDigit || c = '-' || c = '/')
    if cap.isEmpty then none else some ⟨cap⟩

/-- `re.search`: try a head matcher at every start position, left to right. -/
def searchFrom (f : List Char → Option String) : List Char → Option String
  | [] => none
  | c :: rest =>
    match f (c :: rest) with
    | some v => some v
    | none => searchFrom f rest

def provNumSearch (line : String) : Option String :=
  searchFrom provNumAt line.data

/-- The `\s*[-:]\s*(\d+)` tail of `family_re`, after the word `Code`. -/
def codeTail (l : List Char) : Option String :=
  match l.dropWhile Char.isWhitespace with
  | [] => none
  | c :: r2 =>
    if c = '-' || c = ':' then
      let d := (r2.dropWhile Char.isWhitespace).takeWhile Char.isDigit
      if d.isEmpty then none else some ⟨d⟩
    else none

/-- The lazy `.*?\s+Code...` part of `family_re`: scan for the first
whitespace character directly followed by `Code` and a valid tail. -/
def seekWsCode : List Char → Option String
  | [] => none
  | c :: rest =>
    if c.isWhitespace then
      match dropCI "CODE".data rest with
      | some r =>
        match codeTail r with
        | some v => some v
        | none => seekWsCode rest
      | none => seekWsCode rest
    else seekWsCode rest

/-- Try `family_re = Family\s+.*?\s+Code\s*[-:]\s*(\d+)` at the head of `l`. -/
def famAt (l : List Char) : Option String :=
  match dropCI "FAMILY".data l with
  | none => none
  | some [] => none
  | some (c :: r) => if c.isWhitespace then seekWsCode r else none

def famSearch (line : String) : Option String :=
  searchFrom famAt line.data

/-- Try `gifship_re = NHIA\s*-\s*GIFSHIP[_A-Z]*\s+Batch\s+(\d+)` at the
head of `l`. -/
def gifAt (l : List Char) : Option String :=
  match dropCI "NHIA".data l with
  | none => none
  | some r =>
    match r.dropWhile Char.isWhitespace with
    | [] => none
    | c :: r2 =>
      if c = '-' then
        match dropCI "GIFSHIP".data (r2.dropWhile Char.isWhitespace) with
        | none => none
        | some r4 =>
          let r5 := r4.dropWhile (fun ch => ch = '_' || ch.isAlpha)
          let w1 := r5.takeWhile Char.isWhitespace
          let r6 := r5.dropWhile Char.isWhitespace
          if w1.isEmpty then none
          else
            match dropCI "BATCH".data r6 with
            | none => none
            | some r7 =>
              let w2 := r7.takeWhile Char.isWhitespace
              let d := (r7.dropWhile Char.isWhitespace).takeWhile Char.isDigit
              if w2.isEmpty || d.isEmpty then none else some ⟨d⟩
      else none

def gifSearch (line : String) : Option String :=
  searchFrom gifAt line.data

/-- `any(k in line.upper() for k in ('HOSPITAL', ...))`. -/
def providerKeywordLine (line : String) : Bool :=
  ["HOSPITAL", "CLINIC", "CENTRE", "CENTER", "SPECIALIST", "PROVIDER",
   "HEALTH"].any (fun k => hasSub k.data (pyUpper line).data)

/-- `re.search(r'^(S\/N|NHIA|NAME|RELATION|EMP CODE|EMPLOYEE|TOTAL ENROLLEES)', line, IGNORECASE)`. -/
def tableHeaderLine (line : String) : Bool :=
  ["S/N", "NHIA", "NAME", "RELATION", "EMP CODE", "EMPLOYEE",
   "TOTAL ENROLLEES"].any (fun k => (dropCI k.data line.data).isSome)

/-- The category of one non-blank line, in the precedence order of the
`for line in lines` body of `parse_document_text`. -/
inductive LineClass where
  | footer
  | provNum (v : String)
  | famNormal (code : String)
  | famGif (code : String)
  | providerName
  | tableHeader
  | data
deriving DecidableEq, Repr

def classify (line : String) : LineClass :=
  if is_footer_line line then .footer
  else
    match provNumSearch line with
    | some v => .provNum v
    | none =>
      match famSearch line with
      | some code => .famNormal code
      | none =>
        match gifSearch line with
        | some code => .famGif code
        | none =>
          if providerKeywordLine line then .providerName
          else if tableHeaderLine line then .tableHeader
          else .data

/-- The payload-free category of a line (the "kind" of header it is). -/
inductive LineKind where
  | footer | provNum | famNormal | famGif | providerName | tableHeader | data
deriving DecidableEq, Repr

def kindOf (line : String) : LineKind :=
  match classify line with
  | .footer => .footer
  | .provNum _ => .provNum
  | .famNormal _ => .famNormal
  | .famGif _ => .famGif
  | .providerName => .providerName
  | .tableHeader => .tableHeader
  | .data => .data

/-! ## Document Context Tracker and Record Assembler -/

/-- The mutable document context of `parse_document_text`
(`current_provider`, `current_provider_number`, `current_family_code`,
`current_family_type`). -/
structure Ctx where
  provider : Option String
  providerNumber : Option String
  familyCode : Option String
  familyType : String
deriving DecidableEq, Repr

/-- The context at the start of a parse run. -/
def initCtx : Ctx := ⟨none, none, none, "NORMAL"⟩

/-- One output record (the row shape written by `write_csv`). -/
structure Record where
  Provider : String
  ProviderNumber : String
  FamilyCode : String
  NHIA_Number : String
  Relationship : String
  FirstName : String
  LastName : String
  Sex : String
  DOB : String
  EmpCode : String
deriving DecidableEq, Repr

/-- The single-strip GIFSHIP first-name normalization (lines 239–242 of
the source): remove one leading case-insensitive `"MEMBER "` marker, or
empty a first name that is exactly `"MEMBER"`. -/
def stripOnceMember (f : String) : String :=
  if leadsWithStr "MEMBER " (pyUpper f) then pyStrip (pyDrop f 7)
  else if pyUpper f = "MEMBER" then "" else f

/-- The Record Assembler: copy the context fields into a parsed row and
apply the GIFSHIP normalization (lines 233–242 of the source). -/
def assemble (c : Ctx) (p : PreRecord) : Record :=
  let base : Record :=
    ⟨c.provider.getD "", c.providerNumber.getD "", c.familyCode.getD "",
     p.NHIA_Number, p.Relationship, p.FirstName, p.LastName, p.Sex, p.DOB,
     p.EmpCode⟩
  if c.familyType = "GIFSHIP" then
    { base with
      Relationship := "MEMBER"
      FirstName := stripOnceMember p.FirstName }
  else base

/-- One iteration of the `for line in lines` loop: the returned context
is the context after the line, and the option is the record appended for
it (if any). -/
def processLine (c : Ctx) (line : String) : Ctx × Option Record :=
  match classify line with
  | .footer => (c, none)
  | .provNum v => ({ c with providerNumber := some (pyStrip v) }, none)
  | .famNormal code =>
    ({ c with familyCode := some (pyStrip code), familyType := "NORMAL" }, none)
  | .famGif code =>
    ({ c with familyCode := some (pyStrip code), familyType := "GIFSHIP" }, none)
  | .providerName => ({ c with provider := some (pyStrip line) }, none)
  | .tableHeader => (c, none)
  | .data =>
    match parse_member_line line with
    | some pre => (c, some (assemble c pre))
    | none => (c, none)

/-- The whole loop: final context and emitted records, in order. -/
def processLines (c : Ctx) : List String → Ctx × List Record
  | [] => (c, [])
  | l :: ls =>
    let step := processLine c l
    let rest := processLines step.1 ls
    (rest.1, (match step.2 with | some r => [r] | none => []) ++ rest.2)

/-- The line preparation of `parse_document_text`:
`[l.rstrip() for l in text.splitlines() if l.strip() != ""]`. -/
def prepLines (text : String) : List String :=
  ((pySplitlines text).filter (fun l => pyStrip l != "")).map pyRstrip

/-- `parse_document_text`. -/
def parse_document_text (text : String) : List Record :=
  (processLines initCtx (prepLines text)).2

/-- The camelot fallback loop (lines 304–314 of the source): each
candidate line goes through `parse_member_line` only, and the three
context fields are emitted empty. -/
def camelotRows (ls : List String) : List Record :=
  ls.filterMap (fun l =>
    (parse_member_line l).map (fun p =>
      ⟨"", "", "", p.NHIA_Number, p.Relationship, p.FirstName, p.LastName,
       p.Sex, p.DOB, p.EmpCode⟩))

/-- The fixed column list of `write_csv` (`CSV_FIELDS`): the values a
record contributes to its CSV row, in order. -/
def csvRow (r : Record) : List String :=
  [r.Provider, r.ProviderNumber, r.FamilyCode, r.NHIA_Number,
   r.Relationship, r.FirstName, r.LastName, r.Sex, r.DOB, r.EmpCode]

/-! ## Helper lemmas -/

theorem strDataEq {a b : String} (h : a.data = b.data) : a = b := by
  cases a; cases b; cases h; rfl

theorem data_append (a b : String) : (a ++ b).data = a.data ++ b.data := by
  cases a; cases b; rfl

theorem pyUpper_append (a b : String) :
    pyUpper (a ++ b) = pyUpper a ++ pyUpper b := by
  apply strDataEq
  simp [pyUpper, data_append]

theorem scanIdx_some {p : String → Bool} :
    ∀ {ts : List String} {i j : Nat}, scanIdx p ts i = some j →
      ∃ k, k < ts.length ∧ j = i + k ∧ p (ts.getD k "") = true := by
  intro ts
  induction ts with
  | nil => intro i j h; simp [scanIdx] at h
  | cons t rest ih =>
    intro i j h
    by_cases hp : p t
    · simp [scanIdx, hp] at h
      exact ⟨0, by simp, by omega, by simpa using hp⟩
    · simp [scanIdx, hp] at h
      obtain ⟨k, hk, hj, hpk⟩ := ih h
      exact ⟨k + 1, by simpa using Nat.succ_lt_succ hk, by omega, by simpa using hpk⟩

theorem scanIdx_none {p : String → Bool} :
    ∀ {ts : List String} {i : Nat}, (∀ t ∈ ts, p t = false) →
      scanIdx p ts i = none := by
  intro ts
  induction ts with
  | nil => intro i _; rfl
  | cons t rest ih =>
    intro i h
    have h0 : p t = false := h t (by simp)
    simp [scanIdx, h0]
    exact ih (fun t' ht' => h t' (by simp [ht']))

theorem nhiaScan_some :
    ∀ {ts : List String} {fuel i j : Nat}, nhiaScanAux ts fuel i = some j →
      ∃ k, k < ts.length ∧ k < fuel ∧ j = i + k ∧
        nhiaShape (pyStrip (ts.getD k "")) = true := by
  intro ts
  induction ts with
  | nil => intro fuel i j h; simp [nhiaScanAux] at h
  | cons t rest ih =>
    intro fuel i j h
    match fuel with
    | 0 => simp [nhiaScanAux] at h
    | fuel + 1 =>
      by_cases hp : nhiaShape (pyStrip t)
      · simp [nhiaScanAux, hp] at h
        exact ⟨0, by simp, by omega, by omega, by simpa using hp⟩
      · simp [nhiaScanAux, hp] at h
        obtain ⟨k, hk, hf, hj, hpk⟩ := ih h
        exact ⟨k + 1, by simpa using Nat.succ_lt_succ hk, by omega, by omega,
          by simpa using hpk⟩

theorem nhiaScan_none :
    ∀ {ts : List String} {fuel i : Nat},
      (∀ k, k < fuel → nhiaShape (pyStrip (ts.getD k "")) = false) →
      nhiaScanAux ts fuel i = none := by
  intro ts
  induction ts with
  | nil => intro fuel i _; cases fuel <;> rfl
  | cons t rest ih =>
    intro fuel i h
    match fuel with
    | 0 => rfl
    | fuel + 1 =>
      have h0 : nhiaShape (pyStrip t) = false := by simpa using h 0 (by omega)
      simp [nhiaScanAux, h0]
      exact ih (fun k hk => by simpa using h (k + 1) (by omega))

theorem nhiaScan_leftmost :
    ∀ {ts : List String} {fuel i k : Nat}, k < fuel → k < ts.length →
      nhiaShape (pyStrip (ts.getD k "")) = true →
      (∀ m, m < k → nhiaShape (pyStrip (ts.getD m "")) = false) →
      nhiaScanAux ts fuel i = some (i + k) := by
  intro ts
  induction ts with
  | nil => intro fuel i k _ hk; simp at hk
  | cons t rest ih =>
    intro fuel i k hkf hkl hsh hbefore
    match fuel with
    | 0 => omega
    | fuel + 1 =>
      match k with
      | 0 =>
        have hp : nhiaShape (pyStrip t) = true := by simpa using hsh
        simp [nhiaScanAux, hp]
      | k + 1 =>
        have h0 : nhiaShape (pyStrip t) = false := by
          simpa using hbefore 0 (by omega)
        simp [nhiaScanAux, h0]
        have := @ih fuel (i + 1) k (by omega)
          (by simpa using Nat.lt_of_succ_lt_succ hkl) (by simpa using hsh)
          (fun m hm => by simpa using hbefore (m + 1) (by omega))
        rw [this]
        congr 1
        omega

theorem dateShape_ne_empty {s : String} (h : dateShape s = true) : s ≠ "" := by
  intro hs
  subst hs
  revert h
  decide

theorem nhiaShape_ne_empty {s : String} (h : nhiaShape s = true) : s ≠ "" := by
  intro hs
  subst hs
  revert h
  decide

theorem stripChars_empty (cs : List Char) : stripChars cs "" = "" := rfl

/-- If `find_date_index` succeeds, the token at the returned index
matches the date shape directly or after a `strip('.,')`. -/
theorem find_date_index_some {ts : List String} {j : Nat}
    (h : find_date_index ts = some j) :
    j < ts.length ∧
      (dateShape (pyStrip (ts.getD j "")) = true ∨
       dateShape (stripChars ['.', ','] (pyStrip (ts.getD j ""))) = true) := by
  unfold find_date_index at h
  cases h1 : scanIdx (fun t => dateShape (pyStrip t)) ts 0 with
  | some i =>
    rw [h1] at h
    obtain ⟨k, hk, hj, hp⟩ := scanIdx_some h1
    cases h
    constructor
    · omega
    · left
      have : j = k := by omega
      rw [this]
      exact hp
  | none =>
    rw [h1] at h
    obtain ⟨k, hk, hj, hp⟩ := scanIdx_some h
    constructor
    · omega
    · right
      have : j = k := by omega
      rw [this]
      exact hp

/-- If the date token exists, the returned date token is non-empty. -/
theorem find_date_index_token_ne {ts : List String} {j : Nat}
    (h : find_date_index ts = some j) : pyStrip (ts.getD j "") ≠ "" := by
  rcases (find_date_index_some h).2 with h1 | h1
  · exact dateShape_ne_empty h1
  · intro he
    rw [he, stripChars_empty] at h1
    exact absurd h1 (by decide)

/-- Inversion for a successful extraction: the anchors were found, and
the identifier and date fields are the (stripped) tokens at the found
indices. -/
theorem parse_member_line_eq_some {line : String} {r : PreRecord}
    (h : parse_member_line line = some r) :
    ∃ dobIdx nhiaIdx,
      find_date_index (lineTokens line) = some dobIdx ∧
      find_nhia_index (lineTokens line) 3 = some nhiaIdx ∧
      r.NHIA_Number = pyStrip ((lineTokens line).getD nhiaIdx "") ∧
      r.DOB = pyStrip ((lineTokens line).getD dobIdx "") := by
  unfold lineTokens
  simp only [parse_member_line] at h
  split at h
  · exact absurd h (by simp)
  · split at h
    · exact absurd h (by simp)
    · split at h
      · exact absurd h (by simp)
      · split at h
        · exact absurd h (by simp)
        · rename_i dobIdx hdob
          split at h
          · exact absurd h (by simp)
          · rename_i nhiaIdx hnhia
            refine ⟨dobIdx, nhiaIdx, hdob, hnhia, ?_, ?_⟩
            · rw [← Option.some.inj h]
            · rw [← Option.some.inj h]

/-- A successful extraction always carries a non-empty identifier and a
non-empty date of birth. -/
theorem parse_required_ne {line : String} {pre : PreRecord}
    (h : parse_member_line line = some pre) :
    pre.NHIA_Number ≠ "" ∧ pre.DOB ≠ "" := by
  obtain ⟨dobIdx, nhiaIdx, hfd, hfn, hnhia, hdob⟩ := parse_member_line_eq_some h
  constructor
  · rw [hnhia]
    unfold find_nhia_index at hfn
    obtain ⟨k, hkl, hkf, hj, hp⟩ := nhiaScan_some hfn
    have : nhiaIdx = k := by omega
    rw [this]
    exact nhiaShape_ne_empty hp
  · rw [hdob]
    exact find_date_index_token_ne hfd

/-- A line with no date-shaped token (even after `strip('.,')` of every
token) is rejected. -/
theorem parse_none_of_no_date {line : String}
    (h : ∀ t ∈ lineTokens line, dateShape (pyStrip t) = false ∧
      dateShape (stripChars ['.', ','] (pyStrip t)) = false) :
    parse_member_line line = none := by
  have hfd : find_date_index (lineTokens line) = none := by
    unfold find_date_index
    rw [scanIdx_none (fun t ht => (h t ht).1)]
    exact scanIdx_none (fun t ht => (h t ht).2)
  unfold lineTokens at hfd
  simp only [parse_member_line]
  split
  · rfl
  · split
    · rfl
    · split
      · rfl
      · rw [hfd]

/-- A line with no identifier-shaped token among its first three tokens
is rejected. -/
theorem parse_none_of_no_nhia {line : String}
    (h : ∀ k, k < 3 → nhiaShape (pyStrip ((lineTokens line).getD k "")) = false) :
    parse_member_line line = none := by
  have hfn : find_nhia_index (lineTokens line) 3 = none :=
    nhiaScan_none (fun k hk => h k hk)
  unfold lineTokens at hfn
  simp only [parse_member_line]
  split
  · rfl
  · split
    · rfl
    · split
      · rfl
      · split
        · rfl
        · rw [hfn]

/-- A record emitted by one loop iteration is the assembly of a
successful extraction with the current context. -/
theorem processLine_emit {c : Ctx} {line : String} {r : Record}
    (h : (processLine c line).2 = some r) :
    ∃ pre, parse_member_line line = some pre ∧ r = assemble c pre := by
  unfold processLine at h
  split at h
  all_goals first
    | (exact absurd h (by simp))
    | skip
  split at h
  · rename_i pre hp
    exact ⟨pre, hp, (Option.some.inj h).symm⟩
  · exact absurd h (by simp)

theorem assemble_Provider (c : Ctx) (p : PreRecord) :
    (assemble c p).Provider = c.provider.getD "" := by
  unfold assemble
  split <;> rfl

theorem assemble_ProviderNumber (c : Ctx) (p : PreRecord) :
    (assemble c p).ProviderNumber = c.providerNumber.getD "" := by
  unfold assemble
  split <;> rfl

theorem assemble_FamilyCode (c : Ctx) (p : PreRecord) :
    (assemble c p).FamilyCode = c.familyCode.getD "" := by
  unfold assemble
  split <;> rfl

theorem assemble_NHIA (c : Ctx) (p : PreRecord) :
    (assemble c p).NHIA_Number = p.NHIA_Number := by
  unfold assemble
  split <;> rfl

theorem assemble_DOB (c : Ctx) (p : PreRecord) :
    (assemble c p).DOB = p.DOB := by
  unfold assemble
  split <;> rfl

theorem processLine_provider {c : Ctx} {line : String}
    (h : kindOf line ≠ .providerName) :
    (processLine c line).1.provider = c.provider := by
  unfold processLine
  split
  · rfl
  · rfl
  · rfl
  · rfl
  · rename_i hcl
    exact absurd (by simp [kindOf, hcl]) h
  · rfl
  · split <;> rfl

theorem processLine_providerNumber {c : Ctx} {line : String}
    (h : kindOf line ≠ .provNum) :
    (processLine c line).1.providerNumber = c.providerNumber := by
  unfold processLine
  split
  · rfl
  · rename_i v hcl
    exact absurd (by simp [kindOf, hcl]) h
  · rfl
  · rfl
  · rfl
  · rfl
  · split <;> rfl

theorem processLine_family {c : Ctx} {line : String}
    (h1 : kindOf line ≠ .famNormal) (h2 : kindOf line ≠ .famGif) :
    (processLine c line).1.familyCode = c.familyCode ∧
    (processLine c line).1.familyType = c.familyType := by
  unfold processLine
  split
  · exact ⟨rfl, rfl⟩
  · exact ⟨rfl, rfl⟩
  · rename_i code hcl
    exact absurd (by simp [kindOf, hcl]) h1
  · rename_i code hcl
    exact absurd (by simp [kindOf, hcl]) h2
  · exact ⟨rfl, rfl⟩
  · exact ⟨rfl, rfl⟩
  · split <;> exact ⟨rfl, rfl⟩

theorem processLines_provider :
    ∀ (ls : List String) (c : Ctx), (∀ l ∈ ls, kindOf l ≠ .providerName) →
      (processLines c ls).1.provider = c.provider ∧
      ∀ r ∈ (processLines c ls).2, r.Provider = c.provider.getD "" := by
  intro ls
  induction ls with
  | nil =>
    intro c _
    exact ⟨rfl, by intro r hr; simp [processLines] at hr⟩
  | cons l ls ih =>
    intro c h
    have h0 : kindOf l ≠ .providerName := h l (by simp)
    have hstep : (processLine c l).1.provider = c.provider :=
      processLine_provider h0
    obtain ⟨ih1, ih2⟩ := ih (processLine c l).1 (fun l' hl' => h l' (by simp [hl']))
    constructor
    · show (processLines (processLine c l).1 ls).1.provider = c.provider
      rw [ih1, hstep]
    · intro r hr
      have hr' : r ∈ (match (processLine c l).2 with
          | some r => [r] | none => []) ++ (processLines (processLine c l).1 ls).2 := hr
      rcases List.mem_append.mp hr' with hh | ht
      · cases hemit : (processLine c l).2 with
        | none => rw [hemit] at hh; simp at hh
        | some r0 =>
          rw [hemit] at hh
          simp at hh
          subst hh
          obtain ⟨pre, hp, hr0⟩ := processLine_emit hemit
          rw [hr0, assemble_Provider]
      · rw [ih2 r ht, hstep]

theorem processLines_providerNumber :
    ∀ (ls : List String) (c : Ctx), (∀ l ∈ ls, kindOf l ≠ .provNum) →
      (processLines c ls).1.providerNumber = c.providerNumber ∧
      ∀ r ∈ (processLines c ls).2, r.ProviderNumber = c.providerNumber.getD "" := by
  intro ls
  induction ls with
  | nil =>
    intro c _
    exact ⟨rfl, by intro r hr; simp [processLines] at hr⟩
  | cons l ls ih =>
    intro c h
    have h0 : kindOf l ≠ .provNum := h l (by simp)
    have hstep : (processLine c l).1.providerNumber = c.providerNumber :=
      processLine_providerNumber h0
    obtain ⟨ih1, ih2⟩ := ih (processLine c l).1 (fun l' hl' => h l' (by simp [hl']))
    constructor
    · show (processLines (processLine c l).1 ls).1.providerNumber = c.providerNumber
      rw [ih1, hstep]
    · intro r hr
      have hr' : r ∈ (match (processLine c l).2 with
          | some r => [r] | none => []) ++ (processLines (processLine c l).1 ls).2 := hr
      rcases List.mem_append.mp hr' with hh | ht
      · cases hemit : (processLine c l).2 with
        | none => rw [hemit] at hh; simp at hh
        | some r0 =>
          rw [hemit] at hh
          simp at hh
          subst hh
          obtain ⟨pre, hp, hr0⟩ := processLine_emit hemit
          rw [hr0, assemble_ProviderNumber]
      · rw [ih2 r ht, hstep]

theorem processLines_family :
    ∀ (ls : List String) (c : Ctx),
      (∀ l ∈ ls, kindOf l ≠ .famNormal ∧ kindOf l ≠ .famGif) →
      (processLines c ls).1.familyCode = c.familyCode ∧
      (processLines c ls).1.familyType = c.familyType ∧
      ∀ r ∈ (processLines c ls).2, r.FamilyCode = c.familyCode.getD "" := by
  intro ls
  induction ls with
  | nil =>
    intro c _
    exact ⟨rfl, rfl, by intro r hr; simp [processLines] at hr⟩
  | cons l ls ih =>
    intro c h
    have h0 := h l (by simp)
    have hstep := @processLine_family c l h0.1 h0.2
    obtain ⟨ih1, ih2, ih3⟩ := ih (processLine c l).1 (fun l' hl' => h l' (by simp [hl']))
    refine ⟨?_, ?_, ?_⟩
    · show (processLines (processLine c l).1 ls).1.familyCode = c.familyCode
      rw [ih1, hstep.1]
    · show (processLines (processLine c l).1 ls).1.familyType = c.familyType
      rw [ih2, hstep.2]
    · intro r hr
      have hr' : r ∈ (match (processLine c l).2 with
          | some r => [r] | none => []) ++ (processLines (processLine c l).1 ls).2 := hr
      rcases List.mem_append.mp hr' with hh | ht
      · cases hemit : (processLine c l).2 with
        | none => rw [hemit] at hh; simp at hh
        | some r0 =>
          rw [hemit] at hh
          simp at hh
          subst hh
          obtain ⟨pre, hp, hr0⟩ := processLine_emit hemit
          rw [hr0, assemble_FamilyCode]
      · rw [ih3 r ht, hstep.1]

/-- Every record emitted by the loop has a non-empty identifier and date
of birth. -/
theorem processLines_required :
    ∀ (ls : List String) (c : Ctx) (r : Record), r ∈ (processLines c ls).2 →
      r.NHIA_Number ≠ "" ∧ r.DOB ≠ "" := by
  intro ls
  induction ls with
  | nil => intro c r hr; simp [processLines] at hr
  | cons l ls ih =>
    intro c r hr
    have hr' : r ∈ (match (processLine c l).2 with
        | some r => [r] | none => []) ++ (processLines (processLine c l).1 ls).2 := hr
    rcases List.mem_append.mp hr' with hh | ht
    · cases hemit : (processLine c l).2 with
      | none => rw [hemit] at hh; simp at hh
      | some r0 =>
        rw [hemit] at hh
        simp at hh
        subst hh
        obtain ⟨pre, hp, hr0⟩ := processLine_emit hemit
        have := parse_required_ne hp
        rw [hr0, assemble_NHIA, assemble_DOB]
        exact this
    · exact ih (processLine c l).1 r ht

/-! ## Claims -/

/-- C1: every record emitted by the full parse (`parse_document_text`) as
well as by the camelot fallback path has a non-empty `NHIA_Number` and a
non-empty `DOB`; a record is a total structure of ten string fields
(never absent or null), and `write_csv` emits exactly those ten columns
for it. -/
theorem C1_emitted_record_shape :
    (∀ (text : String) (r : Record), r ∈ parse_document_text text →
      r.NHIA_Number ≠ "" ∧ r.DOB ≠ "") ∧
    (∀ (ls : List String) (r : Record), r ∈ camelotRows ls →
      r.NHIA_Number ≠ "" ∧ r.DOB ≠ "") ∧
    (∀ r : Record, (csvRow r).length = 10) := by
  refine ⟨?_, ?_, fun r => rfl⟩
  · intro text r hr
    exact processLines_required (prepLines text) initCtx r hr
  · intro ls r hr
    unfold camelotRows at hr
    obtain ⟨l, hl, hsome⟩ := List.mem_filterMap.mp hr
    cases hp : parse_member_line l with
    | none => rw [hp] at hsome; simp at hsome
    | some pre =>
      rw [hp] at hsome
      simp at hsome
      have := parse_required_ne hp
      rw [← hsome]
      exact this

/-- Witness for C1 at a concrete document. -/
theorem C1_witness :
    ("3024514-1" : String) ≠ "" ∧ ("12/05/1980" : String) ≠ "" :=
  C1_emitted_record_shape.1 "3024514-1 PRINCIPAL JOHN SMITH M 12/05/1980 EMP001"
    ⟨"", "", "", "3024514-1", "PRINCIPAL", "JOHN", "SMITH", "M", "12/05/1980", "EMP001"⟩
    (by decide)

/-- C2 (counterexample to the claim as stated): inside a GIFSHIP family,
a first name that begins with a doubled marker (`"MEMBER MEMBER JOHN"`)
is emitted as `"MEMBER JOHN"` — a leading `"MEMBER"` marker word remains
after the single 7-character strip. -/
theorem C2_cex :
    parse_document_text
      "NHIA - GIFSHIP Batch 123\n1234567 MEMBER MEMBER JOHN DOE M 01/01/2000" =
      [⟨"", "", "123", "1234567", "MEMBER", "MEMBER JOHN", "DOE", "M",
        "01/01/2000", ""⟩] ∧
    leadsWithStr "MEMBER " (pyUpper "MEMBER JOHN") = true := by
  decide

/-- C2 (amended): every record emitted while the tracked family type is
GIFSHIP has relationship `"MEMBER"`, and its first name is the extracted
first name normalized by exactly one pass of `stripOnceMember` (one
leading case-insensitive `"MEMBER "` stripped, or an exact `"MEMBER"`
emptied); at most one marker is removed, so a doubled marker survives. -/
theorem C2_gifship_normalization {c : Ctx} {line : String} {r : Record}
    (hty : c.familyType = "GIFSHIP") (h : (processLine c line).2 = some r) :
    r.Relationship = "MEMBER" ∧
    ∃ pre, parse_member_line line = some pre ∧
      r.FirstName = stripOnceMember pre.FirstName := by
  obtain ⟨pre, hp, hr⟩ := processLine_emit h
  refine ⟨?_, pre, hp, ?_⟩ <;> (subst hr; unfold assemble; rw [if_pos hty])

/-- Witness for C2 at the specification's Scenario D line. -/
theorem C2_witness :
    (⟨"", "", "123", "1111111", "MEMBER", "JANE", "ROE", "F", "03/03/1995", ""⟩ :
      Record).Relationship = "MEMBER" ∧
    ∃ pre, parse_member_line "1111111 MEMBER JANE ROE F 03/03/1995" = some pre ∧
      (⟨"", "", "123", "1111111", "MEMBER", "JANE", "ROE", "F", "03/03/1995", ""⟩ :
        Record).FirstName = stripOnceMember pre.FirstName :=
  @C2_gifship_normalization ⟨none, none, some "123", "GIFSHIP"⟩
    "1111111 MEMBER JANE ROE F 03/03/1995"
    ⟨"", "", "123", "1111111", "MEMBER", "JANE", "ROE", "F", "03/03/1995", ""⟩
    rfl (by decide)

/-- C3 (counterexample to the claim as stated): the three-token
`EXTRA DEPENDENT <digit>` rule fires for `"0"` — not a digit 1–9 — and
the two-token rule fires for `EXTRA DEPENDANT` even when a digit token
follows it. -/
theorem C3_cex :
    parse_member_line "1234567 EXTRA DEPENDENT 0 JOHN DOE M 01/01/2000" =
      some ⟨"1234567", "EXTRA DEPENDENT 0", "JOHN", "DOE", "M", "01/01/2000", ""⟩ ∧
    (["1", "2", "3", "4", "5", "6", "7", "8", "9"].contains "0") = false ∧
    parse_member_line "1234567 EXTRA DEPENDANT 3 PETER PAN 05/05/1999" =
      some ⟨"1234567", "EXTRA DEPENDANT", "3 PETER", "PAN", "", "05/05/1999", ""⟩ ∧
    pyIsDigit "3" = true := by
  decide

/-- C3 (amended): with the middle zone starting `EXTRA DEPENDENT x`, the
three tokens join into the relationship exactly when `x` is a purely
numeric token (`str.isdigit`, any length or value), and otherwise the
two-token rule applies; with the `DEPENDANT` spelling the two-token rule
applies even when a digit token follows. -/
theorem C3_extra_dependent_rule (a b c : String) (rest : List String)
    (ha : pyUpper a = "EXTRA") :
    (pyUpper b = "DEPENDENT" →
      relationSplit (a :: b :: c :: rest) =
        (if pyIsDigit c then (joinSpaces [a, b, c], rest)
         else (joinSpaces [a, b], c :: rest))) ∧
    (pyUpper b = "DEPENDANT" →
      relationSplit (a :: b :: c :: rest) = (joinSpaces [a, b], c :: rest)) := by
  have hjoin : pyUpper (joinSpaces (List.take 2 (a :: b :: c :: rest))) =
      pyUpper a ++ " " ++ pyUpper b := by
    have hsp : pyUpper " " = " " := by decide
    simp [joinSpaces, pyUpper_append, hsp]
  constructor
  · intro hb
    by_cases hd : pyIsDigit c
    · rw [if_pos hd]
      unfold relationSplit
      rw [if_neg (by simp), if_neg (by simp [ha]),
        if_pos ⟨by simp, by simpa using ha, by simpa using hb, by simpa using hd⟩]
      simp
    · rw [if_neg hd]
      unfold relationSplit
      rw [if_neg (by simp), if_neg (by simp [ha]),
        if_neg (by simp [ha, hb, hd]),
        if_pos ⟨by simp, Or.inl (by rw [hjoin, ha, hb]; decide)⟩]
      simp
  · intro hb
    unfold relationSplit
    rw [if_neg (by simp), if_neg (by simp [ha]), if_neg (by simp [hb]),
      if_pos ⟨by simp, Or.inr (by rw [hjoin, ha, hb]; decide)⟩]
    simp

/-- Witness for C3 at a concrete middle zone. -/
theorem C3_witness :
    relationSplit ["EXTRA", "DEPENDENT", "5"] = ("EXTRA DEPENDENT 5", []) :=
  ((C3_extra_dependent_rule "EXTRA" "DEPENDENT" "5" [] (by decide)).1
    (by decide)).trans (by decide)

/-- C4 (counterexample to the claim as stated): a non-blank, non-data
ordinary family-header line processed in a GIFSHIP context overwrites
two context fields at once (`familyCode` and `familyType`), so "exactly
one field or untouched" fails. -/
theorem C4_cex :
    ((processLine ⟨none, none, some "111", "GIFSHIP"⟩ "Family A Code - 999").1.familyCode ≠
      (⟨none, none, some "111", "GIFSHIP"⟩ : Ctx).familyCode) ∧
    ((processLine ⟨none, none, some "111", "GIFSHIP"⟩ "Family A Code - 999").1.familyType ≠
      (⟨none, none, some "111", "GIFSHIP"⟩ : Ctx).familyType) ∧
    classify "Family A Code - 999" ≠ .data ∧
    pyStrip "Family A Code - 999" ≠ "" := by
  decide

/-- C4 (amended): every processed line either leaves the context
untouched, overwrites only `provider`, overwrites only `providerNumber`,
or overwrites the `familyCode`/`familyType` pair together; a data line
never writes any context field. -/
theorem C4_context_frame (c : Ctx) (line : String) :
    ((processLine c line).1 = c ∨
     (∃ v, (processLine c line).1 = { c with provider := some v }) ∨
     (∃ v, (processLine c line).1 = { c with providerNumber := some v }) ∨
     (∃ code t, (processLine c line).1 =
        { c with familyCode := some code, familyType := t })) ∧
    (classify line = .data → (processLine c line).1 = c) := by
  constructor
  · unfold processLine
    split
    · exact Or.inl rfl
    · exact Or.inr (Or.inr (Or.inl ⟨_, rfl⟩))
    · exact Or.inr (Or.inr (Or.inr ⟨_, _, rfl⟩))
    · exact Or.inr (Or.inr (Or.inr ⟨_, _, rfl⟩))
    · exact Or.inr (Or.inl ⟨_, rfl⟩)
    · exact Or.inl rfl
    · split
      · exact Or.inl rfl
      · exact Or.inl rfl
  · intro h
    unfold processLine
    simp only [h]
    split <;> rfl

/-- Witness for C4 at a concrete data line. -/
theorem C4_witness :
    (processLine initCtx "1234567 PRINCIPAL JOHN DOE M 01/01/2000").1 = initCtx :=
  (C4_context_frame initCtx "1234567 PRINCIPAL JOHN DOE M 01/01/2000").2 (by decide)

/-- C5 (counterexample to the claim as stated): the retry strips `.` and
`,` from both ends of each token, not only trailing ones — a line whose
only date-shaped token carries a leading dot still parses, though no
token matches after a trailing-only strip. -/
theorem C5_cex :
    parse_member_line "1234567 JOHN DOE M .01/01/2000" =
      some ⟨"1234567", "", "JOHN", "DOE", "M", ".01/01/2000", ""⟩ ∧
    (lineTokens "1234567 JOHN DOE M .01/01/2000").all
      (fun t => !dateShape (pyStrip t) &&
        !dateShape (stripRightChars ['.', ','] (pyStrip t))) = true := by
  decide

/-- C5 (amended): if no token of the line matches the date shape, even
after the retry that strips leading and trailing `.`/`,` from each token
(Python `strip('.,')`), the extractor rejects the line. -/
theorem C5_no_date_rejected {line : String}
    (h : ∀ t ∈ lineTokens line, dateShape (pyStrip t) = false ∧
      dateShape (stripChars ['.', ','] (pyStrip t)) = false) :
    parse_member_line line = none :=
  parse_none_of_no_date h

/-- Witness for C5 at a concrete dateless line. -/
theorem C5_witness :
    (∀ t ∈ lineTokens "HELLO WORLD FOO", dateShape (pyStrip t) = false ∧
      dateShape (stripChars ['.', ','] (pyStrip t)) = false) ∧
    parse_member_line "HELLO WORLD FOO" = none :=
  ⟨by decide, C5_no_date_rejected (by decide)⟩

/-- C6: if none of the first three tokens matches the national-identifier
shape, the extractor rejects the line — regardless of identifier-shaped
tokens appearing later. -/
theorem C6_no_nhia_rejected {line : String}
    (h : ∀ k, k < 3 → nhiaShape (pyStrip ((lineTokens line).getD k "")) = false) :
    parse_member_line line = none :=
  parse_none_of_no_nhia h

/-- Witness for C6: a line with a date and an identifier-shaped token in
fourth-plus position is still rejected. -/
theorem C6_witness :
    (∀ k, k < 3 →
      nhiaShape (pyStrip ((lineTokens "AB CD EF 01/01/2000 9999999").getD k "")) = false) ∧
    parse_member_line "AB CD EF 01/01/2000 9999999" = none :=
  ⟨by decide, C6_no_nhia_rejected (by decide)⟩

/-- C7: context persistence — over any run of lines containing no header
line of a given kind, that context field (and for families, the family
type) is unchanged at the end, and every record emitted during the run
carries the initial value of that field. -/
theorem C7_context_persistence (c : Ctx) (ls : List String) :
    ((∀ l ∈ ls, kindOf l ≠ .providerName) →
      (processLines c ls).1.provider = c.provider ∧
      ∀ r ∈ (processLines c ls).2, r.Provider = c.provider.getD "") ∧
    ((∀ l ∈ ls, kindOf l ≠ .provNum) →
      (processLines c ls).1.providerNumber = c.providerNumber ∧
      ∀ r ∈ (processLines c ls).2, r.ProviderNumber = c.providerNumber.getD "") ∧
    ((∀ l ∈ ls, kindOf l ≠ .famNormal ∧ kindOf l ≠ .famGif) →
      (processLines c ls).1.familyCode = c.familyCode ∧
      (processLines c ls).1.familyType = c.familyType ∧
      ∀ r ∈ (processLines c ls).2, r.FamilyCode = c.familyCode.getD "") :=
  ⟨fun h => processLines_provider ls c h,
   fun h => processLines_providerNumber ls c h,
   fun h => processLines_family ls c h⟩

/-- Witness for C7 at a concrete context and data line. -/
theorem C7_witness :
    (processLines ⟨some "X HOSPITAL", some "PN1", some "FC9", "NORMAL"⟩
      ["1234567 PRINCIPAL A B M 01/01/2000"]).1.familyCode = some "FC9" ∧
    ∀ r ∈ (processLines ⟨some "X HOSPITAL", some "PN1", some "FC9", "NORMAL"⟩
      ["1234567 PRINCIPAL A B M 01/01/2000"]).2, r.FamilyCode = "FC9" :=
  ⟨((C7_context_persistence ⟨some "X HOSPITAL", some "PN1", some "FC9", "NORMAL"⟩
      ["1234567 PRINCIPAL A B M 01/01/2000"]).2.2 (by decide)).1,
   ((C7_context_persistence ⟨some "X HOSPITAL", some "PN1", some "FC9", "NORMAL"⟩
      ["1234567 PRINCIPAL A B M 01/01/2000"]).2.2 (by decide)).2.2⟩

/-- C8: Scenario A — the reference line extracts to exactly the expected
record. -/
theorem C8_scenario_a :
    parse_member_line "3024514-1 PRINCIPAL JOHN SMITH M 12/05/1980 EMP001" =
      some ⟨"3024514-1", "PRINCIPAL", "JOHN", "SMITH", "M", "12/05/1980", "EMP001"⟩ := by
  decide

/-- C9: the extractor is total — on every input string it returns either
an explicit rejection or a fully populated record (a total structure of
seven string fields); there is no partial or throwing outcome. -/
theorem C9_extractor_total (line : String) :
    parse_member_line line = none ∨ ∃ pre, parse_member_line line = some pre := by
  cases h : parse_member_line line with
  | none => exact Or.inl rfl
  | some pre => exact Or.inr ⟨pre, rfl⟩

/-- C10: when an identifier-shaped token occurs at position `i` of the
first-three-token window and no earlier token matches, the scan returns
exactly `i`, and any successful extraction records that token — so a
leading serial-number token shadows the true identifier. -/
theorem C10_leftmost_identifier {line : String} {i : Nat}
    (h1 : i < 3) (h2 : i < (lineTokens line).length)
    (h3 : nhiaShape (pyStrip ((lineTokens line).getD i "")) = true)
    (h4 : ∀ j, j < i → nhiaShape (pyStrip ((lineTokens line).getD j "")) = false) :
    find_nhia_index (lineTokens line) 3 = some i ∧
    ∀ r, parse_member_line line = some r →
      r.NHIA_Number = pyStrip ((lineTokens line).getD i "") := by
  have hfind : find_nhia_index (lineTokens line) 3 = some i := by
    unfold find_nhia_index
    have := @nhiaScan_leftmost (lineTokens line) 3 0 i h1 h2 h3 h4
    simpa using this
  refine ⟨hfind, ?_⟩
  intro r hr
  obtain ⟨dobIdx, nhiaIdx, hfd, hfn, hnhia, hdob⟩ := parse_member_line_eq_some hr
  rw [hfind] at hfn
  rw [hnhia, ← Option.some.inj hfn]

/-- Witness for C10: a serial-number-led line records `"123"` as the
identifier. -/
theorem C10_witness :
    find_nhia_index (lineTokens "123 4567890 PRINCIPAL JOHN DOE M 01/01/2000") 3 =
      some 0 ∧
    (⟨"123", "", "4567890 PRINCIPAL JOHN", "DOE", "M", "01/01/2000", ""⟩ :
      PreRecord).NHIA_Number =
      pyStrip ((lineTokens "123 4567890 PRINCIPAL JOHN DOE M 01/01/2000").getD 0 "") :=
  ⟨(@C10_leftmost_identifier "123 4567890 PRINCIPAL JOHN DOE M 01/01/2000" 0
      (by decide) (by decide) (by decide) (by decide)).1,
   (@C10_leftmost_identifier "123 4567890 PRINCIPAL JOHN DOE M 01/01/2000" 0
      (by decide) (by decide) (by decide) (by decide)).2
      ⟨"123", "", "4567890 PRINCIPAL JOHN", "DOE", "M", "01/01/2000", ""⟩ (by decide)⟩

end RegConv
